import Mathlib

/-!
Verification of the ping-monitoring subsystem of the maple_discord_bot
repository.

This is a shallow embedding of the latency-monitoring code in
`src/utils/ping_utils.py`, `src/commands/monitoring_commands.py` and
`src/core/tasks.py`, together with proofs of the specified properties.

Conventions of the embedding:
* A Python `Packet` dataclass becomes the structure `Packet`; latencies are
  integers (the probe stores `int(latency[0])`), timestamps are abstract
  naturals, and rational arithmetic (`ℚ`) stands for Python's real
  arithmetic.
* A `collections.deque` with `maxlen` is a `List` (oldest first) together
  with the bounded-append operation `dequeAppend`.
* Code that can raise is modelled with `Option` / explicit outcome types;
  a total Lean function models code that cannot raise.
-/

/-- Structure `Packet` from `src/utils/ping_utils.py`:
`channel: int`, `ping: int`, `time: datetime`, `success: bool`.
Timestamps are abstracted to naturals. -/
structure Packet where
  channel : Nat
  ping : Int
  time : Nat
  success : Bool
deriving DecidableEq, Repr

/-- One `append` on a Python `collections.deque` with `maxlen = cap`
(oldest element at the head): when the deque is full the oldest element is
discarded from the left before the new one is appended on the right. -/
def dequeAppend (cap : Nat) (w : List Packet) (p : Packet) : List Packet :=
  if w.length < cap then w ++ [p] else w.drop 1 ++ [p]

/-- Ingesting a stream of packets into one endpoint's history window:
`channel_ping_history[packet.channel].append(packet)` repeated over the
arrival sequence. -/
def ingestAll (cap : Nat) (w : List Packet) (ps : List Packet) : List Packet :=
  ps.foldl (dequeAppend cap) w

/-- Window capacity used at every creation site:
`deque([], 150)` in `monitoring_commands.initialize_monitoring` and in
`TaskManager.__init__` ("5 minutes, 2 seconds per tick"). -/
def WINDOW_CAP : Nat := 150

/-- Concrete stream of 151 distinct packets used as the ring-buffer witness. -/
def c1Stream : List Packet :=
  (List.range 151).map (fun i => { channel := 7, ping := Int.ofNat i, time := i, success := true })

/-- Python `int()` applied to a rational: truncation toward zero.  The probe
stores `ping = int(latency[0])`. -/
def truncQ (q : ℚ) : ℤ := if 0 ≤ q then ⌊q⌋ else ⌈q⌉

/-- Outcome of one iteration of the Sampler loop body. -/
inductive RunOutcome where
  /-- The iteration completed and produced this packet for the queue. -/
  | produced (p : Packet)
  /-- The iteration raised `TypeError` at `int(latency[0])`; the exception is
  uncaught inside `run`, so it escapes the loop and terminates the thread. -/
  | raisesTypeError
deriving DecidableEq, Repr

/-- One iteration of `PingCheckingThread.run` (lines 86–98 of
`src/utils/ping_utils.py`) after the sleep, up to the production of the
`Packet`.  The boundary call is `measure_latency(host, port)` from the
`tcp_latency` package with its default `runs=1`: it returns a list with one
entry per run, each entry being the value of `latency_point(...)` — the
measured latency in milliseconds for an established connection, and Python
`None` when `latency_point` swallows the socket error (timeout, refused
connection, DNS failure, unreachable) and returns `None`.  So the returned
list is `[l]` on success and the truthy `[None]` on failure; an empty (falsy)
list arises only for zero runs.  We model an entry as `Option ℚ`.  The code
initialises `ping = 0`, `success = False`, enters the `if latency:` branch
whenever the list is nonempty, and there evaluates `int(latency[0])`:
`int(None)` raises `TypeError`. -/
def runBody (channel : Nat) (latency : List (Option ℚ)) (now : Nat) : RunOutcome :=
  match latency with
  | [] => .produced { channel := channel, ping := 0, time := now, success := false }
  | some l :: _ => .produced { channel := channel, ping := truncQ l, time := now, success := true }
  | none :: _ => .raisesTypeError

/-- The list comprehension
`pings = [packet.ping for packet in history if packet.success]` used by
every statistics site in `monitoring_commands.py`. -/
def successPings (w : List Packet) : List Int :=
  (w.filter (fun p => p.success)).map (fun p => p.ping)

/-- The comprehension
`pings = [packet.ping for packet in self.channel_ping_history[channel]]`
at line 195 of `src/core/tasks.py`, with no success filter. -/
def allPings (w : List Packet) : List Int := w.map (fun p => p.ping)

/-- Exact value of `statistics.mean` on a nonempty list of integer pings. -/
def meanQ (l : List Int) : ℚ := (l.sum : ℚ) / l.length

/-- The square of `statistics.stdev l` for `l.length ≥ 2`: sample variance
with the `n − 1` denominator. -/
def sampleVar (l : List Int) : ℚ :=
  (l.map (fun x => ((x : ℚ) - meanQ l) ^ 2)).sum / ((l.length : ℚ) - 1)

/-- Python `round(q)` (banker's rounding, half to even) on an exact
rational. -/
def roundHalfEven (q : ℚ) : ℤ :=
  if q - ⌊q⌋ < 1/2 then ⌊q⌋
  else if 1/2 < q - ⌊q⌋ then ⌊q⌋ + 1
  else if ⌊q⌋ % 2 = 0 then ⌊q⌋ else ⌊q⌋ + 1

/-- Python `round(q, 2)`: rounding to two decimal places. -/
def round2 (q : ℚ) : ℚ := (roundHalfEven (100 * q) : ℚ) / 100

/-- Python `round(x)` (half to even) on a real value, for quantities — such
as a standard deviation — whose exact value is irrational. -/
noncomputable def roundHalfEvenR (x : ℝ) : ℤ :=
  if x - ⌊x⌋ < 1/2 then ⌊x⌋
  else if 1/2 < x - ⌊x⌋ then ⌊x⌋ + 1
  else if ⌊x⌋ % 2 = 0 then ⌊x⌋ else ⌊x⌋ + 1

/-- Python `round(x, 2)` on a real value. -/
noncomputable def round2R (x : ℝ) : ℝ := (roundHalfEvenR (100 * x) : ℝ) / 100

/-- The standard deviation stored by the statistics updates for a window
whose successful pings have sample variance `v`:
`round(statistics.stdev(pings), 2)` = the two-decimal rounding of the square
root of the variance. -/
noncomputable def storedStdev (v : ℚ) : ℝ := round2R (Real.sqrt (v : ℝ))

/-- Outcome of one per-channel statistics update in the monitoring loops. -/
inductive StatsOutcome where
  /-- No update: `len(pings) == 0`, the stored averages are not touched. -/
  | skip
  /-- The stored entry becomes `(round(mean, 2), round(stdev, 2))`; we record
  the rounded mean and the sample variance (the stored standard deviation is
  `storedStdev` of this variance). -/
  | ok (avg : ℚ) (varr : ℚ)
  /-- Raised: `statistics.stdev(pings)` raises `StatisticsError` (fewer than
  two data points) and the exception propagates out of the update. -/
  | raisesStatisticsError
deriving DecidableEq, Repr

/-- Lines 82–92 of `src/commands/monitoring_commands.py`
(`handle_ping_command`), identical to lines 294–303 there
(`check_ping_and_notify`): per-channel statistics update.  `pings` keeps only
successful packets; `channel_avg = round(statistics.mean(pings), 2)` and
`channel_std_dev = round(statistics.stdev(pings), 2)` are computed when
`len(pings) != 0`; `statistics.stdev` raises on a single data point. -/
def cmdsChannelStats (w : List Packet) : StatsOutcome :=
  let pings := successPings w
  if pings.length = 0 then .skip
  else if pings.length = 1 then .raisesStatisticsError
  else .ok (round2 (meanQ pings)) (sampleVar pings)

/-- Lines 193–200 of `src/core/tasks.py` (`TaskManager.check_ping_and_notify`):
the same update, except that `pings` is built without the `packet.success`
filter, so failed probes contribute their sentinel ping of 0. -/
def taskChannelStats (w : List Packet) : StatsOutcome :=
  let pings := allPings w
  if pings.length = 0 then .skip
  else if pings.length = 1 then .raisesStatisticsError
  else .ok (round2 (meanQ pings)) (sampleVar pings)

/-- The standard-deviation component returned by `get_channel_statistics`:
`round(statistics.stdev(pings), 2) if len(pings) > 1 else 0.0`.
`sqrtOfVar v` denotes `round(sqrt v, 2)` where `v` is the sample variance. -/
inductive StddevVal where
  | zero
  | sqrtOfVar (v : ℚ)
deriving DecidableEq, Repr

/-- Lines 434–455 of `src/commands/monitoring_commands.py`
(`get_channel_statistics`): returns `None` when the channel is unknown or has
no successful samples, otherwise `(round(mean,2), guarded stdev, len(pings))`.
The history mapping is an association list `channel ↦ window`. -/
def get_channel_statistics (hist : List (Nat × List Packet)) (channel : Nat) :
    Option (ℚ × StddevVal × Nat) :=
  match List.lookup channel hist with
  | none => none
  | some w =>
    let pings := successPings w
    if pings.length = 0 then none
    else some (round2 (meanQ pings),
               if 1 < pings.length then .sqrtOfVar (sampleVar pings) else .zero,
               pings.length)

/-- Lines 215–236 of `src/commands/monitoring_commands.py`
(`handle_ping_graph_command`), data extraction and the no-data reply:
`channel_pings`/`channel_times` keep the successful packets of
`channel_ping_history.get(channel, [])`; when `channel_pings` is empty the
command sends "No ping data available for channel …" (modelled as `none`)
and returns without rendering. -/
def pingGraphData (hist : List (Nat × List Packet)) (channel : Nat) :
    Option (List Int × List Nat) :=
  let w := (List.lookup channel hist).getD []
  let channelPings := successPings w
  let channelTimes := (w.filter (fun p => p.success)).map (fun p => p.time)
  if channelPings = [] then none else some (channelPings, channelTimes)

/-- Assignment `channel_ping_averages[channel] = (avg, std)` on the stored
dict, modelled as an association list with Python-dict semantics: replace the
existing key, otherwise append (insertion order preserved). -/
def setEntry : List (Nat × ℚ × ℚ) → Nat → ℚ × ℚ → List (Nat × ℚ × ℚ)
  | [], ch, v => [(ch, v)]
  | e :: rest, ch, v => if e.1 = ch then (ch, v) :: rest else e :: setEntry rest ch v

/-- Effect of one pass of the lines-82-92 loop body on the stored
`channel_ping_averages` for one channel: the assignment happens only when the
statistics were computed (`.ok`); with no successful samples (`.skip`) the
previously stored — possibly stale — entry survives untouched; a
`StatisticsError` aborts the update (`none`). -/
def updateAverages (avgs : List (Nat × ℚ × ℚ)) (ch : Nat) (w : List Packet) :
    Option (List (Nat × ℚ × ℚ)) :=
  match cmdsChannelStats w with
  | .skip => some avgs
  | .ok a v => some (setEntry avgs ch (a, v))
  | .raisesStatisticsError => none

/-- The statistics reported for channel `ch` after its update pass: whatever
`channel_ping_averages` then associates with `ch` (rankings, reports and
threshold checks all read this dict). -/
def reportedStats (avgs : List (Nat × ℚ × ℚ)) (ch : Nat) (w : List Packet) :
    Option (Option (ℚ × ℚ)) :=
  (updateAverages avgs ch w).map (fun r => List.lookup ch r)

/-- One insertion step of a descending sort by key `f`, modelling Python
`sorted(..., key=..., reverse=True)`; only membership in the sorted list
matters to the downstream threshold scan. -/
def insertDesc (f : Nat × ℚ × ℚ → ℚ) (e : Nat × ℚ × ℚ) :
    List (Nat × ℚ × ℚ) → List (Nat × ℚ × ℚ)
  | [] => [e]
  | x :: xs => if f x ≤ f e then e :: x :: xs else x :: insertDesc f e xs

/-- Descending sort by key `f` of the stored averages,
`sorted(channel_ping_averages.items(), key=..., reverse=True)`. -/
def sortDescBy (f : Nat × ℚ × ℚ → ℚ) (l : List (Nat × ℚ × ℚ)) :
    List (Nat × ℚ × ℚ) :=
  l.foldr (insertDesc f) []

/-- The scan `for ping in rankings: if key(ping) > thr: flag = True; break`
from lines 316–324 of `monitoring_commands.py` and lines 212–220 of
`tasks.py`. -/
def breachLoop (f : Nat × ℚ × ℚ → ℚ) (thr : ℚ) : List (Nat × ℚ × ℚ) → Bool
  | [] => false
  | e :: rest => if thr < f e then true else breachLoop f thr rest

/-- Threshold check over the stored per-channel statistics
(channel, average, standard deviation): lines 305–324 of
`monitoring_commands.check_ping_and_notify` (identically lines 202–220 of
`tasks.py`).  The averages are sorted descending by each metric and scanned
for a value strictly above 200 ms (ping) resp. 100 ms (standard
deviation). -/
def check_thresholds (stats : List (Nat × ℚ × ℚ)) : Bool × Bool :=
  (breachLoop (fun e => e.2.1) 200 (sortDescBy (fun e => e.2.1) stats),
   breachLoop (fun e => e.2.2) 100 (sortDescBy (fun e => e.2.2) stats))

/-- Line 15 of `src/utils/ping_utils.py`:
`MAX_QUEUE_SIZE = 40 * 300` (40 channels × 300 elements per channel). -/
def MAX_QUEUE_SIZE : Nat := 40 * 300

/-- The producer-side drop loop, lines 99–100 of `ping_utils.py`:
`while self._result_queue.qsize() > MAX_QUEUE_SIZE: self._result_queue.get()`.
The shared queue is a list with its oldest element at the head. -/
def drainOverCap (q : List Packet) : List Packet :=
  if _h : MAX_QUEUE_SIZE < q.length then drainOverCap (q.drop 1) else q
termination_by q.length
decreasing_by
  simp only [List.length_drop]
  omega

/-- One producer step, lines 99–101 of `ping_utils.py`: run the drop loop,
then `self._result_queue.put(packet)`. -/
def producerStep (q : List Packet) (p : Packet) : List Packet :=
  drainOverCap q ++ [p]

/-- Supervisory view of one `PingCheckingThread`: its `_channel` and
`_result_queue` constructor arguments (the queue by identity), the liveness
of its execution unit (`is_alive()`), and its `_handled` mark. -/
structure ThreadRec where
  channel : Nat
  queueId : Nat
  alive : Bool
  handled : Bool
deriving DecidableEq, Repr

/-- First loop of `check_threads_and_restart` (lines 349–355 of
`monitoring_commands.py`, lines 245–253 of `tasks.py`): every dead thread is
marked `_handled = True`. -/
def markDead (ts : List ThreadRec) : List ThreadRec :=
  ts.map (fun t => if t.alive then t else { t with handled := true })

/-- The `dead_thread_channels` list accumulated by the same loop. -/
def deadChannels (ts : List ThreadRec) : List Nat :=
  (ts.filter (fun t => !t.alive)).map (fun t => t.channel)

/-- One run of the supervisor sweep `check_threads_and_restart`
(`@tasks.loop(minutes=10)`): mark dead threads handled, rebuild the live list
as `[t for t in threads if not t._handled]`, then start one replacement
`PingCheckingThread(result_queue=queue, channel=channel, ...)` per dead
channel and append it.  The second component models the
`logger.info("Spinning up new thread for channel …")` records: a Python
`LogRecord` carries its creation time, so each restart is recorded as a
(channel, timestamp) entry. -/
def sweepRestart (qid now : Nat) (ts : List ThreadRec) :
    List ThreadRec × List (Nat × Nat) :=
  let marked := markDead ts
  let kept := marked.filter (fun t => !t.handled)
  let dead := deadChannels ts
  (kept ++ dead.map (fun ch =>
      { channel := ch, queueId := qid, alive := true, handled := false }),
   dead.map (fun ch => (ch, now)))

/-- Failing input for the success-filter divergence: a window holding one
successful probe of 100 ms and one failed probe (sentinel ping 0). -/
def c3Window : List Packet :=
  [{ channel := 1, ping := 100, time := 0, success := true },
   { channel := 1, ping := 0, time := 2, success := false }]

/-- Failing input for the single-sample standard deviation: a window holding
exactly one successful sample. -/
def c4Window : List Packet :=
  [{ channel := 1, ping := 100, time := 0, success := true }]

/-- A window holding only failed probes. -/
def c5Window : List Packet :=
  [{ channel := 1, ping := 0, time := 0, success := false },
   { channel := 1, ping := 0, time := 2, success := false }]

/-- A window holding two successful samples of 10 ms and 20 ms. -/
def c6Window : List Packet :=
  [{ channel := 1, ping := 10, time := 0, success := true },
   { channel := 1, ping := 20, time := 2, success := true }]

/-- Window of 149 successful samples (147 at 10 ms, 2 at 11 ms): true mean
1492/149 ≈ 10.0134. -/
def c10WindowA : List Packet :=
  List.replicate 147 { channel := 1, ping := 10, time := 0, success := true } ++
  List.replicate 2 { channel := 1, ping := 11, time := 0, success := true }

/-- Window of 120 successful samples (118 at 10 ms, 2 at 11 ms): true mean
1202/120 ≈ 10.0167. -/
def c10WindowB : List Packet :=
  List.replicate 118 { channel := 2, ping := 10, time := 0, success := true } ++
  List.replicate 2 { channel := 2, ping := 11, time := 0, success := true }

theorem dequeAppend_length_le (cap : Nat) (w : List Packet) (p : Packet)
    (hcap : 0 < cap) (hw : w.length ≤ cap) :
    (dequeAppend cap w p).length ≤ cap := by
  unfold dequeAppend
  split
  · simp only [List.length_append, List.length_singleton]
    omega
  · simp only [List.length_append, List.length_singleton, List.length_drop]
    omega

/-- The window after ingesting `ps` holds exactly the most recent `cap`
elements of `w ++ ps`, in arrival order. -/
theorem ingestAll_eq_drop (cap : Nat) (hcap : 0 < cap) :
    ∀ (ps w : List Packet), w.length ≤ cap →
      ingestAll cap w ps = (w ++ ps).drop ((w ++ ps).length - cap) := by
  intro ps
  induction ps with
  | nil =>
    intro w hw
    simp only [ingestAll, List.foldl_nil, List.append_nil]
    rw [show w.length - cap = 0 from by omega, List.drop_zero]
  | cons p rest ih =>
    intro w hw
    have step : ingestAll cap w (p :: rest) = ingestAll cap (dequeAppend cap w p) rest := by
      simp [ingestAll]
    rw [step, ih _ (dequeAppend_length_le cap w p hcap hw)]
    unfold dequeAppend
    rcases lt_or_eq_of_le hw with h | h
    · rw [if_pos h]
      simp only [List.append_assoc, List.singleton_append]
    · rw [if_neg (by omega)]
      rcases w with _ | ⟨q, w₂⟩
      · simp at h; omega
      · have hw2 : w₂.length + 1 = cap := by simpa using h
        have e1 : (q :: w₂).drop 1 = w₂ := rfl
        rw [e1]
        have hA : (w₂ ++ [p] ++ rest).length - cap = rest.length := by
          simp only [List.length_append, List.length_singleton]
          omega
        have hB : ((q :: w₂) ++ p :: rest).length - cap = rest.length + 1 := by
          simp only [List.length_append, List.length_cons]
          omega
        have e2 : w₂ ++ [p] ++ rest = w₂ ++ p :: rest := by
          simp only [List.append_assoc, List.singleton_append]
        have e3 : (q :: w₂) ++ p :: rest = q :: (w₂ ++ p :: rest) := rfl
        rw [hA, hB, e2, e3, List.drop_succ_cons]

theorem ingestAll_length_le (cap : Nat) (hcap : 0 < cap)
    (ps w : List Packet) (hw : w.length ≤ cap) :
    (ingestAll cap w ps).length ≤ cap := by
  rw [ingestAll_eq_drop cap hcap ps w hw]
  simp only [List.length_drop]
  omega

/-- C1: ring-buffer bound for the per-endpoint history window
(`deque([], 150)`).  The window's length never exceeds the capacity 150;
after ingesting `N > 150` samples from empty the window is exactly the last
150 samples in arrival order; and an append at full capacity evicts the
oldest sample. -/
theorem c1_ring_buffer_bound (ps : List Packet) (hN : WINDOW_CAP < ps.length) :
    (ingestAll WINDOW_CAP [] ps).length = WINDOW_CAP ∧
    ingestAll WINDOW_CAP [] ps = ps.drop (ps.length - WINDOW_CAP) ∧
    (∀ qs : List Packet, (ingestAll WINDOW_CAP [] qs).length ≤ WINDOW_CAP) ∧
    (∀ (w : List Packet) (p : Packet), w.length = WINDOW_CAP →
      dequeAppend WINDOW_CAP w p = w.drop 1 ++ [p]) := by
  have hcap : 0 < WINDOW_CAP := by norm_num [WINDOW_CAP]
  have hmain := ingestAll_eq_drop WINDOW_CAP hcap ps [] (by simp)
  simp only [List.nil_append] at hmain
  refine ⟨?_, hmain, ?_, ?_⟩
  · rw [hmain]
    simp only [List.length_drop]
    omega
  · intro qs
    exact ingestAll_length_le WINDOW_CAP hcap qs [] (by simp)
  · intro w p hwfull
    unfold dequeAppend
    rw [if_neg (by omega)]

/-- Witness for C1 at a concrete 151-packet stream. -/
theorem c1_ring_buffer_bound_witness :
    WINDOW_CAP < c1Stream.length ∧
    ((ingestAll WINDOW_CAP [] c1Stream).length = WINDOW_CAP ∧
     ingestAll WINDOW_CAP [] c1Stream = c1Stream.drop (c1Stream.length - WINDOW_CAP) ∧
     (∀ qs : List Packet, (ingestAll WINDOW_CAP [] qs).length ≤ WINDOW_CAP) ∧
     (∀ (w : List Packet) (p : Packet), w.length = WINDOW_CAP →
       dequeAppend WINDOW_CAP w p = w.drop 1 ++ [p])) := by
  have hlen : WINDOW_CAP < c1Stream.length := by
    simp [c1Stream, WINDOW_CAP]
  exact ⟨hlen, c1_ring_buffer_bound c1Stream hlen⟩

/-- C2 at its failing input: a failed probe (DNS failure, refused connection,
timeout, unreachable) makes `measure_latency` return the truthy one-element
list `[None]`, the loop body takes the `if latency:` branch and
`int(latency[0])` raises `TypeError` — the measurement failure propagates as
an exception and terminates the Sampler's thread instead of collapsing to a
`success=false` sample.  A successful probe yields the success sample with
the truncated measured latency; only the empty list (impossible under the
default `runs=1`) yields the claimed `success=false` sample. -/
theorem c2_probe_failure_raises (channel now : Nat) :
    runBody channel [none] now = .raisesTypeError ∧
    (∀ l : ℚ, runBody channel [some l] now
      = .produced { channel := channel, ping := truncQ l, time := now, success := true }) ∧
    runBody channel [] now
      = .produced { channel := channel, ping := 0, time := now, success := false } := by
  exact ⟨rfl, fun l => rfl, rfl⟩

/-- C3 at its failing input: `TaskManager.check_ping_and_notify` builds the
pings list without the success filter, so the failed probe's sentinel ping 0
contributes to the statistics — the stored mean over a window with one
successful 100 ms sample and one failure is 50, not the mean 100 of the
successful samples that the claim (and every `monitoring_commands` site)
prescribes. -/
theorem c3_unfiltered_stats_at_failing_input :
    allPings c3Window = [100, 0] ∧
    successPings c3Window = [100] ∧
    taskChannelStats c3Window = .ok 50 5000 ∧
    round2 (meanQ (successPings c3Window)) = 100 ∧
    (50 : ℚ) ≠ 100 := by
  refine ⟨by decide, by decide, ?_, ?_, by norm_num⟩
  · simp only [taskChannelStats, allPings, c3Window]
    norm_num [round2, roundHalfEven, meanQ, sampleVar]
  · simp only [successPings, c3Window]
    norm_num [round2, roundHalfEven, meanQ]

/-- C4 at its failing input: for a window with exactly one successful sample,
`get_channel_statistics` returns standard deviation 0 (its `len(pings) > 1`
guard), but the unguarded sites `handle_ping_command`,
`monitoring_commands.check_ping_and_notify` and
`TaskManager.check_ping_and_notify` call `statistics.stdev` on the singleton
list, which raises `StatisticsError`. -/
theorem c4_single_sample_stdev_at_failing_input :
    get_channel_statistics [(1, c4Window)] 1 = some (100, .zero, 1) ∧
    cmdsChannelStats c4Window = .raisesStatisticsError ∧
    taskChannelStats c4Window = .raisesStatisticsError := by
  refine ⟨?_, ?_, ?_⟩
  · simp only [get_channel_statistics, List.lookup, successPings, c4Window]
    norm_num [round2, roundHalfEven, meanQ]
  · simp only [cmdsChannelStats, successPings, c4Window]
    norm_num
  · simp only [taskChannelStats, allPings, c4Window]
    norm_num

/-- C5: for an endpoint whose window holds no successful samples (or that is
absent from the history), both cited query surfaces return the explicit
no-data result — `get_channel_statistics` returns `None` and
`handle_ping_graph_command` replies "No ping data available for channel …" —
rather than an exception, a division by zero, or the value 0.0. -/
theorem c5_no_data (hist : List (Nat × List Packet)) (ch : Nat)
    (h : ∀ w, List.lookup ch hist = some w → successPings w = []) :
    get_channel_statistics hist ch = none ∧ pingGraphData hist ch = none := by
  cases hl : List.lookup ch hist with
  | none =>
    constructor
    · simp [get_channel_statistics, hl]
    · simp [pingGraphData, hl, successPings]
  | some w =>
    have hw := h w hl
    constructor
    · simp [get_channel_statistics, hl, hw]
    · simp [pingGraphData, hl, hw]

/-- Witness for C5 at a concrete all-failure window. -/
theorem c5_no_data_witness :
    (∀ w, List.lookup 1 [(1, c5Window)] = some w → successPings w = []) ∧
    (get_channel_statistics [(1, c5Window)] 1 = none ∧
     pingGraphData [(1, c5Window)] 1 = none) := by
  have h : ∀ w, List.lookup 1 [(1, c5Window)] = some w → successPings w = [] := by
    intro w hw
    have h2 : some c5Window = some w := by simpa [List.lookup] using hw
    cases h2
    decide
  exact ⟨h, c5_no_data [(1, c5Window)] 1 h⟩

/-- C6 counterexample: with the same all-failed current window for channel 1,
two program states that differ only in the previously stored
`channel_ping_averages` report different statistics for that channel — the
stale cached value survives the update pass and is what rankings, reports and
threshold checks read, so the reported statistics are not a function of the
current window alone. -/
theorem c6_stats_cached_counterexample :
    reportedStats [] 1 c5Window = some none ∧
    reportedStats [(1, (250, 25))] 1 c5Window = some (some (250, 25)) ∧
    some (none : Option (ℚ × ℚ)) ≠ some (some ((250 : ℚ), (25 : ℚ))) := by
  refine ⟨?_, ?_, by simp⟩
  · simp [reportedStats, updateAverages, cmdsChannelStats, successPings, c5Window]
  · simp [reportedStats, updateAverages, cmdsChannelStats, successPings, c5Window,
      List.lookup]

theorem lookup_setEntry (ch : Nat) (v : ℚ × ℚ) :
    ∀ st : List (Nat × ℚ × ℚ), List.lookup ch (setEntry st ch v) = some v := by
  intro st
  induction st with
  | nil => simp [setEntry, List.lookup]
  | cons e rest ih =>
    by_cases he : e.1 = ch
    · simp [setEntry, he, List.lookup]
    · have hbeq : (ch == e.1) = false := by
        simp [Ne.symm he]
      simp [setEntry, he, List.lookup, hbeq, ih]

/-- C6 amended: whenever the update pass actually computes and caches
statistics for a channel — a window with at least two successful samples,
outcome `.ok` — the reported entry is a function of the current window
alone: two program states with arbitrary, different previously stored
averages report the same statistics after the pass.  In the two remaining
cases nothing is recomputed: with exactly one successful sample the pass
raises `StatisticsError` and caches nothing (again regardless of the stored
state), and with no successful samples the previously stored, possibly
stale, value persists (see the counterexample). -/
theorem c6_stats_function_of_window (w : List Packet) (ch : Nat)
    (avgs avgs' : List (Nat × ℚ × ℚ)) (a v : ℚ)
    (h : cmdsChannelStats w = .ok a v) :
    (reportedStats avgs ch w = some (some (a, v)) ∧
     reportedStats avgs' ch w = some (some (a, v))) ∧
    (∀ w' : List Packet, cmdsChannelStats w' = .raisesStatisticsError →
      updateAverages avgs ch w' = none ∧ updateAverages avgs' ch w' = none) := by
  refine ⟨?_, ?_⟩
  · constructor <;>
      simp [reportedStats, updateAverages, h, lookup_setEntry]
  · intro w' h'
    constructor <;> simp [updateAverages, h']

/-- Witness for C6 amended at a two-sample window and two different stored
states. -/
theorem c6_stats_function_of_window_witness :
    cmdsChannelStats c6Window = .ok 15 50 ∧
    ((reportedStats [] 1 c6Window = some (some (15, 50)) ∧
      reportedStats [(1, (250, 25))] 1 c6Window = some (some (15, 50))) ∧
     (∀ w' : List Packet, cmdsChannelStats w' = .raisesStatisticsError →
       updateAverages [] 1 w' = none ∧
       updateAverages [(1, (250, 25))] 1 w' = none)) := by
  have h : cmdsChannelStats c6Window = .ok 15 50 := by
    simp only [cmdsChannelStats, successPings, c6Window]
    norm_num [round2, roundHalfEven, meanQ, sampleVar]
  exact ⟨h, c6_stats_function_of_window c6Window 1 [] [(1, (250, 25))] 15 50 h⟩

theorem mem_insertDesc (f : Nat × ℚ × ℚ → ℚ) (e a : Nat × ℚ × ℚ) :
    ∀ l, a ∈ insertDesc f e l ↔ a = e ∨ a ∈ l := by
  intro l
  induction l with
  | nil => simp [insertDesc]
  | cons x xs ih =>
    simp only [insertDesc]
    split
    · simp only [List.mem_cons]
    · simp only [List.mem_cons, ih]
      tauto

theorem mem_sortDescBy (f : Nat × ℚ × ℚ → ℚ) (a : Nat × ℚ × ℚ) :
    ∀ l, a ∈ sortDescBy f l ↔ a ∈ l := by
  intro l
  induction l with
  | nil => simp [sortDescBy]
  | cons x xs ih =>
    have hstep : sortDescBy f (x :: xs) = insertDesc f x (sortDescBy f xs) := rfl
    rw [hstep, mem_insertDesc]
    simp only [List.mem_cons, ih]

theorem breachLoop_true_iff (f : Nat × ℚ × ℚ → ℚ) (thr : ℚ) :
    ∀ l, breachLoop f thr l = true ↔ ∃ e ∈ l, thr < f e := by
  intro l
  induction l with
  | nil => simp [breachLoop]
  | cons x xs ih =>
    simp only [breachLoop]
    split
    · simp only [List.mem_cons]
      constructor
      · intro _
        exact ⟨x, Or.inl rfl, by assumption⟩
      · intro _
        trivial
    · simp only [List.mem_cons, ih]
      constructor
      · rintro ⟨e, he, hgt⟩
        exact ⟨e, Or.inr he, hgt⟩
      · rintro ⟨e, he | he, hgt⟩
        · subst he
          exact absurd hgt (by assumption)
        · exact ⟨e, he, hgt⟩

/-- C7: the threshold check is strict greater-than — the "high ping" flag is
set exactly when some stored entry's average exceeds 200 ms strictly, the
"high stddev" flag exactly when some stored standard deviation exceeds 100 ms
strictly; an endpoint averaging 250 ms breaches while one at exactly 200 ms
does not. -/
theorem c7_threshold_strict (stats : List (Nat × ℚ × ℚ)) :
    ((check_thresholds stats).1 = true ↔ ∃ e ∈ stats, 200 < e.2.1) ∧
    ((check_thresholds stats).2 = true ↔ ∃ e ∈ stats, 100 < e.2.2) ∧
    (check_thresholds [(1, 250, 0)]).1 = true ∧
    (check_thresholds [(1, 200, 0)]).1 = false ∧
    (check_thresholds [(1, 0, 100)]).2 = false := by
  refine ⟨?_, ?_, ?_, ?_, ?_⟩
  · rw [check_thresholds, breachLoop_true_iff]
    constructor
    · rintro ⟨e, he, hgt⟩
      exact ⟨e, (mem_sortDescBy _ e _).mp he, hgt⟩
    · rintro ⟨e, he, hgt⟩
      exact ⟨e, (mem_sortDescBy _ e _).mpr he, hgt⟩
  · rw [check_thresholds, breachLoop_true_iff]
    constructor
    · rintro ⟨e, he, hgt⟩
      exact ⟨e, (mem_sortDescBy _ e _).mp he, hgt⟩
    · rintro ⟨e, he, hgt⟩
      exact ⟨e, (mem_sortDescBy _ e _).mpr he, hgt⟩
  · norm_num [check_thresholds, sortDescBy, insertDesc, breachLoop]
  · norm_num [check_thresholds, sortDescBy, insertDesc, breachLoop]
  · norm_num [check_thresholds, sortDescBy, insertDesc, breachLoop]

theorem drainOverCap_eq_drop_aux (n : Nat) :
    ∀ q : List Packet, q.length ≤ n →
      drainOverCap q = q.drop (q.length - MAX_QUEUE_SIZE) := by
  induction n with
  | zero =>
    intro q hq
    rw [drainOverCap.eq_def, dif_neg (by omega)]
    rw [show q.length - MAX_QUEUE_SIZE = 0 from by omega, List.drop_zero]
  | succ n ih =>
    intro q hq
    rw [drainOverCap.eq_def]
    split
    · rename_i h
      rw [ih (q.drop 1) (by simp only [List.length_drop]; omega)]
      simp only [List.length_drop, List.drop_drop]
      rw [show 1 + (q.length - 1 - MAX_QUEUE_SIZE) = q.length - MAX_QUEUE_SIZE from by omega]
    · rename_i h
      rw [show q.length - MAX_QUEUE_SIZE = 0 from by omega, List.drop_zero]

theorem drainOverCap_eq_drop (q : List Packet) :
    drainOverCap q = q.drop (q.length - MAX_QUEUE_SIZE) :=
  drainOverCap_eq_drop_aux q.length q le_rfl

/-- A concrete packet used to fill the queue. -/
def c8Packet : Packet := { channel := 1, ping := 0, time := 0, success := false }

/-- C8 counterexample: with the shared queue holding exactly
`MAX_QUEUE_SIZE = 12000` pending samples, the producer's drop loop
(`while qsize() > MAX_QUEUE_SIZE`) removes nothing, and the subsequent `put`
leaves 12001 buffered samples — strictly above the stated capacity bound, so
at capacity the producer does not remove the oldest sample before enqueueing
and the size does not stay bounded by the capacity. -/
theorem c8_exact_capacity_counterexample :
    MAX_QUEUE_SIZE = 12000 ∧
    drainOverCap (List.replicate MAX_QUEUE_SIZE c8Packet)
      = List.replicate MAX_QUEUE_SIZE c8Packet ∧
    (producerStep (List.replicate MAX_QUEUE_SIZE c8Packet) c8Packet).length
      = MAX_QUEUE_SIZE + 1 ∧
    MAX_QUEUE_SIZE < MAX_QUEUE_SIZE + 1 := by
  have h1 : drainOverCap (List.replicate MAX_QUEUE_SIZE c8Packet)
      = List.replicate MAX_QUEUE_SIZE c8Packet := by
    rw [drainOverCap.eq_def, dif_neg (by simp)]
  refine ⟨by norm_num [MAX_QUEUE_SIZE], h1, ?_, by omega⟩
  rw [producerStep, h1]
  simp

/-- C8 amended: the producer never blocks — its step is a total function that
first pops oldest samples while the queue size strictly exceeds
`MAX_QUEUE_SIZE` and then enqueues, so after every producer step the queue
holds at most `MAX_QUEUE_SIZE + 1` samples (one above the drop threshold: the
loop condition is strict, so a queue already at the threshold receives the
new sample without any eviction). -/
theorem c8_bounded_plus_one (q : List Packet) (p : Packet) :
    producerStep q p = q.drop (q.length - MAX_QUEUE_SIZE) ++ [p] ∧
    (producerStep q p).length ≤ MAX_QUEUE_SIZE + 1 := by
  have h := drainOverCap_eq_drop q
  constructor
  · rw [producerStep, h]
  · rw [producerStep, h]
    simp only [List.length_append, List.length_drop, List.length_singleton]
    omega

/-- C9: one run of the supervisor sweep (`check_threads_and_restart`, the
10-minute task) on any thread list none of whose members is already marked
handled: every dead Sampler thread is removed from the live set (every thread
in the post-sweep list is alive), a replacement thread for the same channel
wired to the supervisor's ingestion queue is started and present in the live
set, the restart is recorded with its timestamp in the log, and live threads
are kept unchanged — so the replacement resumes publishing into the same
queue from this sweep on. -/
theorem c9_sweep_restarts (qid now : Nat) (ts : List ThreadRec)
    (hclean : ∀ t ∈ ts, t.handled = false) :
    (∀ t ∈ ts, t.alive = false →
      ({ channel := t.channel, queueId := qid, alive := true, handled := false } : ThreadRec)
          ∈ (sweepRestart qid now ts).1 ∧
      (t.channel, now) ∈ (sweepRestart qid now ts).2) ∧
    (∀ t ∈ ts, t.alive = true → t ∈ (sweepRestart qid now ts).1) ∧
    (∀ r ∈ (sweepRestart qid now ts).1, r.alive = true) := by
  have hdeadmem : ∀ t ∈ ts, t.alive = false → t.channel ∈ deadChannels ts := by
    intro t ht hd
    exact List.mem_map_of_mem _ (List.mem_filter.mpr ⟨ht, by simp [hd]⟩)
  refine ⟨?_, ?_, ?_⟩
  · intro t ht hd
    constructor
    · apply List.mem_append.mpr
      right
      exact List.mem_map_of_mem _ (hdeadmem t ht hd)
    · exact List.mem_map_of_mem _ (hdeadmem t ht hd)
  · intro t ht ha
    apply List.mem_append.mpr
    left
    apply List.mem_filter.mpr
    constructor
    · exact List.mem_map.mpr ⟨t, ht, by simp [ha]⟩
    · simp [hclean t ht]
  · intro r hr
    rcases List.mem_append.mp hr with hl | hrt
    · rcases List.mem_filter.mp hl with ⟨hrm, hrh⟩
      rcases List.mem_map.mp hrm with ⟨t', ht', heq⟩
      by_cases ha : t'.alive = true
      · rw [← heq]
        simp [ha]
      · exfalso
        have : r.handled = true := by
          rw [← heq]
          simp [ha]
        simp [this] at hrh
    · rcases List.mem_map.mp hrt with ⟨ch, _, heq⟩
      rw [← heq]

/-- Witness for C9: one dead thread on channel 1 and one live thread on
channel 2, both wired to queue 5, swept at time 42. -/
theorem c9_sweep_restarts_witness :
    (∀ t ∈ [({ channel := 1, queueId := 5, alive := false, handled := false } : ThreadRec),
            { channel := 2, queueId := 5, alive := true, handled := false }],
        t.handled = false) ∧
    ((∀ t ∈ [({ channel := 1, queueId := 5, alive := false, handled := false } : ThreadRec),
             { channel := 2, queueId := 5, alive := true, handled := false }],
        t.alive = false →
        ({ channel := t.channel, queueId := 5, alive := true, handled := false } : ThreadRec)
            ∈ (sweepRestart 5 42 [{ channel := 1, queueId := 5, alive := false, handled := false },
                                  { channel := 2, queueId := 5, alive := true, handled := false }]).1 ∧
        (t.channel, 42) ∈ (sweepRestart 5 42 [{ channel := 1, queueId := 5, alive := false, handled := false },
                                  { channel := 2, queueId := 5, alive := true, handled := false }]).2) ∧
     (∀ t ∈ [({ channel := 1, queueId := 5, alive := false, handled := false } : ThreadRec),
             { channel := 2, queueId := 5, alive := true, handled := false }],
        t.alive = true →
        t ∈ (sweepRestart 5 42 [{ channel := 1, queueId := 5, alive := false, handled := false },
                                { channel := 2, queueId := 5, alive := true, handled := false }]).1) ∧
     (∀ r ∈ (sweepRestart 5 42 [{ channel := 1, queueId := 5, alive := false, handled := false },
                                { channel := 2, queueId := 5, alive := true, handled := false }]).1,
        r.alive = true)) := by
  have hclean : ∀ t ∈ [({ channel := 1, queueId := 5, alive := false, handled := false } : ThreadRec),
            { channel := 2, queueId := 5, alive := true, handled := false }],
      t.handled = false := by decide
  exact ⟨hclean, c9_sweep_restarts 5 42 _ hclean⟩

theorem round2_eq_low (q : ℚ) (k : ℤ) (h1 : (k : ℚ) ≤ 100 * q)
    (h2 : 100 * q - k < 1/2) :
    round2 q = (k : ℚ) / 100 := by
  have hfloor : ⌊(100 * q : ℚ)⌋ = k := by
    rw [Int.floor_eq_iff]
    constructor
    · exact h1
    · linarith
  rw [round2, roundHalfEven, hfloor]
  rw [if_pos (by linarith)]

theorem round2_eq_high (q : ℚ) (k : ℤ) (h1 : (k : ℚ) ≤ 100 * q)
    (h2 : 1/2 < 100 * q - k) (h3 : 100 * q < k + 1) :
    round2 q = ((k : ℚ) + 1) / 100 := by
  have hfloor : ⌊(100 * q : ℚ)⌋ = k := by
    rw [Int.floor_eq_iff]
    constructor
    · exact h1
    · linarith
  rw [round2, roundHalfEven, hfloor]
  rw [if_neg (by linarith), if_pos (by linarith)]
  push_cast
  ring

/-- C10 counterexample: two windows whose true means differ by less than
0.005 ms (the gap is 29/8940 ≈ 0.0032) are nevertheless stored as the
distinct quantized means 10.01 and 10.02, because the true means straddle the
rounding boundary 10.015 — closeness below 0.005 does not make endpoints
compare as equal. -/
theorem c10_rounding_boundary_counterexample :
    meanQ (successPings c10WindowA) = 1492/149 ∧
    meanQ (successPings c10WindowB) = 1202/120 ∧
    meanQ (successPings c10WindowB) - meanQ (successPings c10WindowA) < 5/1000 ∧
    (0 : ℚ) < meanQ (successPings c10WindowB) - meanQ (successPings c10WindowA) ∧
    round2 (meanQ (successPings c10WindowA)) = 1001/100 ∧
    round2 (meanQ (successPings c10WindowB)) = 1002/100 ∧
    round2 (meanQ (successPings c10WindowA)) ≠ round2 (meanQ (successPings c10WindowB)) := by
  have hA : successPings c10WindowA
      = List.replicate 147 (10 : Int) ++ List.replicate 2 11 := by decide
  have hB : successPings c10WindowB
      = List.replicate 118 (10 : Int) ++ List.replicate 2 11 := by decide
  have hmA : meanQ (successPings c10WindowA) = 1492/149 := by
    rw [hA]
    simp [meanQ, List.sum_append, List.sum_replicate, smul_eq_mul]
  have hmB : meanQ (successPings c10WindowB) = 1202/120 := by
    rw [hB]
    simp [meanQ, List.sum_append, List.sum_replicate, smul_eq_mul]
  have hrA : round2 ((1492 : ℚ)/149) = 1001/100 := by
    rw [round2_eq_low ((1492 : ℚ)/149) 1001 (by norm_num) (by norm_num)]
    norm_num
  have hrB : round2 ((1202 : ℚ)/120) = 1002/100 := by
    rw [round2_eq_high ((1202 : ℚ)/120) 1001 (by norm_num) (by norm_num) (by norm_num)]
    norm_num
  refine ⟨hmA, hmB, ?_, ?_, ?_, ?_, ?_⟩
  · rw [hmA, hmB]; norm_num
  · rw [hmA, hmB]; norm_num
  · rw [hmA]; exact hrA
  · rw [hmB]; exact hrB
  · rw [hmA, hmB, hrA, hrB]; norm_num

theorem cmdsChannelStats_ok_avg (w : List Packet) (a v : ℚ)
    (h : cmdsChannelStats w = .ok a v) :
    a = round2 (meanQ (successPings w)) := by
  simp only [cmdsChannelStats] at h
  split_ifs at h
  simp_all

/-- C10 amended: every stored ping is a whole number of milliseconds — the
probe truncates the measured latency with `int()` — and both stored
statistics are quantized before storage: the stored per-channel mean is
`round(mean, 2)` and the stored standard deviation is
`round(stdev(pings), 2)`, each an integer multiple of 0.01; rankings and
threshold checks therefore compare these quantized values, and two endpoints
whose true means round to the same two-decimal value are stored with equal
means (a true-mean difference below 0.005 ms is not by itself sufficient —
see the counterexample for means straddling a rounding boundary). -/
theorem c10_quantized_statistics (ch now : Nat) (l : ℚ) (hl : 0 ≤ l)
    (wA wB : List Packet) (a a' v v' : ℚ)
    (hA : cmdsChannelStats wA = .ok a v) (hB : cmdsChannelStats wB = .ok a' v')
    (hround : round2 (meanQ (successPings wA)) = round2 (meanQ (successPings wB))) :
    (runBody ch [some l] now
        = .produced { channel := ch, ping := truncQ l, time := now, success := true } ∧
     (truncQ l : ℚ) ≤ l ∧ l < (truncQ l : ℚ) + 1) ∧
    (∃ k : ℤ, a = (k : ℚ) / 100) ∧
    (∃ k : ℤ, storedStdev v = (k : ℝ) / 100) ∧
    a = a' := by
  have htr : truncQ l = ⌊l⌋ := by
    rw [truncQ, if_pos hl]
  refine ⟨⟨rfl, ?_, ?_⟩, ?_, ?_, ?_⟩
  · rw [htr]
    exact_mod_cast Int.floor_le l
  · rw [htr]
    linarith [Int.lt_floor_add_one l]
  · rw [cmdsChannelStats_ok_avg wA a v hA, round2]
    exact ⟨roundHalfEven (100 * meanQ (successPings wA)), rfl⟩
  · exact ⟨roundHalfEvenR (100 * Real.sqrt (v : ℝ)), rfl⟩
  · rw [cmdsChannelStats_ok_avg wA a v hA, cmdsChannelStats_ok_avg wB a' v' hB, hround]

/-- Witness for C10 amended at latency 5/2 ms and the two-sample window. -/
theorem c10_quantized_statistics_witness :
    (0 : ℚ) ≤ 5/2 ∧
    cmdsChannelStats c6Window = .ok 15 50 ∧
    ((runBody 1 [some (5/2)] 0
        = .produced { channel := 1, ping := truncQ (5/2), time := 0, success := true } ∧
      (truncQ (5/2) : ℚ) ≤ 5/2 ∧ 5/2 < (truncQ (5/2) : ℚ) + 1) ∧
     (∃ k : ℤ, (15 : ℚ) = (k : ℚ) / 100) ∧
     (∃ k : ℤ, storedStdev 50 = (k : ℝ) / 100) ∧
     (15 : ℚ) = 15) := by
  have h0 : (0 : ℚ) ≤ 5/2 := by norm_num
  have h : cmdsChannelStats c6Window = .ok 15 50 := by
    simp only [cmdsChannelStats, successPings, c6Window]
    norm_num [round2, roundHalfEven, meanQ, sampleVar]
  exact ⟨h0, h,
    c10_quantized_statistics 1 0 (5/2) h0 c6Window c6Window 15 15 50 50 h h rfl⟩
